import Mathlib

/-!
Verification of the PFE scraper (src/scraper.py).

The program has two parts:
* a fetcher (`fetch_page` / `scrape_all`) that pulls paginated JSON items
  from an API and extracts one title per item, and
* a reconciler (`save_excel`) that merges the fetched names into a
  persisted spreadsheet, appending only rows whose `Name` is not already
  present and leaving existing rows untouched.

The embedding below mirrors the Python source.  Network and filesystem
effects are made explicit: the network is a function from page number to
an optional item list (`none` models a transport error / exception), and
the spreadsheet file is a `FileState` (absent, unparsable, or parsed
rows).  The fetch loop is embedded with explicit fuel because the source
loop, as written, does not terminate on every input.
-/

/-- The rendered-title object nested inside an API item
(`item["title"]["rendered"]`); the field may be missing. -/
structure TitleObj where
  rendered : Option String
deriving DecidableEq

/-- One item of a page payload; the `title` field may be missing. -/
structure Item where
  title : Option TitleObj
deriving DecidableEq

/-- `item.get("title", {}).get("rendered", "No Title")` from
`scrape_all`: a missing title object or a missing rendered field both
fall back to the literal `"No Title"`. -/
def extractTitle (item : Item) : String :=
  match item.title with
  | none => "No Title"
  | some t => t.rendered.getD "No Title"

/-- The query parameters of one HTTP request issued by `fetch_page`
(`params={"per_page": 100, "page": page}`). -/
structure Request where
  per_page : Nat
  page : Nat
deriving DecidableEq

/-- `fetch_page`: a transport error or unexpected exception (`net page =
none`) is caught and turned into the empty list. -/
def fetch_page (net : Nat → Option (List Item)) (page : Nat) : List Item :=
  (net page).getD []

/-- The `while True` loop of `scrape_all`, with explicit fuel (number of
remaining loop iterations; the Python loop has no bound, so `none` means
the loop has not terminated within `fuel` iterations).  Faithful to the
source: the body fetches `page`, breaks when the payload is empty, and
otherwise appends the extracted titles and loops — the source never
increments `page`. -/
def scrapeLoop (fetch : Nat → List Item) : Nat → Nat → List String → Option (List String)
  | 0, _, _ => none
  | fuel + 1, page, results =>
      let data := fetch page
      if data.isEmpty then some results
      else scrapeLoop fetch fuel page (results ++ data.map extractTitle)

/-- `scrape_all`: run the loop from page 1 with an empty accumulator. -/
def scrape_all (fetch : Nat → List Item) (fuel : Nat) : Option (List String) :=
  scrapeLoop fetch fuel 1 []

/-- The sequence of requests issued by the `scrape_all` loop within
`fuel` iterations: each iteration requests `per_page=100, page=page`,
and the loop continues (with `page` unchanged, as in the source) while
payloads are nonempty. -/
def scrapeRequests (fetch : Nat → List Item) : Nat → Nat → List Request
  | 0, _ => []
  | fuel + 1, page =>
      ⟨100, page⟩ :: (if (fetch page).isEmpty then [] else scrapeRequests fetch fuel page)

/-- A concrete item whose title renders to `"A"`. -/
def itemA : Item := ⟨some ⟨some "A"⟩⟩

/-- A concrete network: page 1 holds one item, every other page is
empty (the API has exactly one item in total). -/
def net1 : Nat → Option (List Item) := fun p => if p = 1 then some [itemA] else some []

-- Reconciler ----------------------------------------------------------

/-- One spreadsheet row: the four columns
`Name, Project Submitted, Response, Statut` of `save_excel`. -/
structure Row where
  name : String
  projectSubmitted : String
  response : String
  statut : String
deriving DecidableEq

/-- The persisted spreadsheet file: absent, present but unparsable, or
parsed into rows. -/
inductive FileState where
  | absent
  | corrupt
  | ok (rows : List Row)
deriving DecidableEq

/-- Step 1 of `save_excel`: the base dataframe and the `existing_names`
membership collection.  A missing file and an unreadable file both give
the empty dataframe and an empty membership collection. -/
def loadExisting : FileState → List Row × List String
  | .absent => ([], [])
  | .corrupt => ([], [])
  | .ok rows => (rows, rows.map Row.name)

/-- The record built for a new company: default tracking fields, status
`"Non fait"` (the NotDone value of the dropdown `"Non fait,Fait"`). -/
def mkRecord (name : String) : Row :=
  { name := name, projectSubmitted := "", response := "", statut := "Non fait" }

/-- Step 2 of `save_excel`: the `for name in scraped_names` loop.  Each
name is tested against the fixed `existing_names` collection (which the
loop never updates) and appended as a default record when absent. -/
def newCompaniesToAdd (existingNames : List String) : List String → List Row
  | [] => []
  | n :: rest =>
      if n ∈ existingNames then newCompaniesToAdd existingNames rest
      else mkRecord n :: newCompaniesToAdd existingNames rest

/-- Steps 3–4 of `save_excel`: `pd.concat([existing_df, new_df])`, the
dataframe written back when new companies exist. -/
def reconciledRows (fs : FileState) (scraped : List String) : List Row :=
  (loadExisting fs).1 ++ newCompaniesToAdd (loadExisting fs).2 scraped

/-- `save_excel` as a transformation of the persisted file: when no new
companies are found the function returns early and the file is left as
it was; otherwise the merged dataframe is written. -/
def save_excel (fs : FileState) (scraped : List String) : FileState :=
  if (newCompaniesToAdd (loadExisting fs).2 scraped).isEmpty then fs
  else .ok (reconciledRows fs scraped)

-- Helper lemmas -------------------------------------------------------

/-- The membership collection is exactly the names of the base rows. -/
theorem loadExisting_snd (fs : FileState) :
    (loadExisting fs).2 = (loadExisting fs).1.map Row.name := by
  cases fs <;> rfl

/-- The names of the appended records are the fetched names filtered by
non-membership, in fetch order. -/
theorem map_name_newCompanies (ens : List String) (scraped : List String) :
    (newCompaniesToAdd ens scraped).map Row.name
      = scraped.filter (fun n => decide (n ∉ ens)) := by
  induction scraped with
  | nil => rfl
  | cons n rest ih =>
      by_cases h : n ∈ ens <;> simp [newCompaniesToAdd, h, ih, mkRecord]

/-- If every fetched name is already a member, no record is appended. -/
theorem newCompanies_eq_nil (ens : List String) (scraped : List String)
    (h : ∀ n ∈ scraped, n ∈ ens) : newCompaniesToAdd ens scraped = [] := by
  induction scraped with
  | nil => rfl
  | cons n rest ih =>
      have hn : n ∈ ens := h n (List.mem_cons_self ..)
      simp only [newCompaniesToAdd, if_pos hn]
      exact ih fun m hm => h m (List.mem_cons_of_mem _ hm)

/-- A fetched name absent from the membership collection shows up among
the appended records' names. -/
theorem mem_newCompanies_names (ens : List String) (scraped : List String)
    (n : String) (hn : n ∈ scraped) (hmem : n ∉ ens) :
    n ∈ (newCompaniesToAdd ens scraped).map Row.name := by
  rw [map_name_newCompanies]
  simp [List.mem_filter, hn, hmem]

/-- With the empty membership collection every fetched name is appended. -/
theorem newCompanies_nil_left (scraped : List String) :
    newCompaniesToAdd [] scraped = scraped.map mkRecord := by
  induction scraped with
  | nil => rfl
  | cons n rest ih => simp [newCompaniesToAdd, ih]

/-- The scrape loop on `net1` never terminates: page 1 is nonempty and
the page counter is never advanced, so every iteration refetches page 1. -/
theorem scrapeLoop_net1_none (fuel : Nat) :
    ∀ acc, scrapeLoop (fetch_page net1) fuel 1 acc = none := by
  induction fuel with
  | zero => intro acc; rfl
  | succ k ih =>
      intro acc
      have hfetch : fetch_page net1 1 = [itemA] := rfl
      simp only [scrapeLoop, hfetch, List.isEmpty_cons, Bool.false_eq_true, if_false]
      exact ih _

-- Claim theorems ------------------------------------------------------

/-- Claim C1: the spec says the requested page index starts at 1 and is
incremented by 1 after each successful fetch (the n-th successful
request is for page n).  The code never increments `page`: on a network
whose first page is nonempty, the first two requests are both for page 1
(with `per_page = 100`), so the 2nd request is not for page 2. -/
theorem C1_page_not_incremented :
    (scrapeRequests (fetch_page net1) 2 1).map Request.page = [1, 1]
    ∧ (scrapeRequests (fetch_page net1) 2 1).map Request.per_page = [100, 100]
    ∧ (scrapeRequests (fetch_page net1) 2 1).map Request.page ≠ [1, 2] := by
  refine ⟨rfl, rfl, ?_⟩
  decide

/-- Claim C2: the spec says `scrape_all` terminates as soon as some page
yields zero items.  On `net1`, page 2 yields zero items, yet the loop
never terminates — within any number of iterations `fuel` it has not
returned — because the unincremented page counter keeps refetching the
nonempty page 1. -/
theorem C2_nontermination :
    (fetch_page net1 2).isEmpty = true
    ∧ ∀ fuel, scrape_all (fetch_page net1) fuel = none := by
  refine ⟨rfl, fun fuel => ?_⟩
  exact scrapeLoop_net1_none fuel []

/-- Claim C9: an item with no title field extracts to `"No Title"`
rather than failing, and an item whose title field carries a rendered
value extracts to that value. -/
theorem C9_title_fallback (item : Item) :
    (item.title = none → extractTitle item = "No Title")
    ∧ (∀ t s, item.title = some t → t.rendered = some s → extractTitle item = s) := by
  constructor
  · intro h; simp [extractTitle, h]
  · intro t s ht hs; simp [extractTitle, ht, hs]

/-- Witness for C9 at concrete items. -/
theorem C9_title_fallback_witness :
    extractTitle ⟨none⟩ = "No Title" ∧ extractTitle ⟨some ⟨some "X"⟩⟩ = "X" :=
  ⟨(C9_title_fallback ⟨none⟩).1 rfl,
   (C9_title_fallback ⟨some ⟨some "X"⟩⟩).2 ⟨some "X"⟩ "X" rfl rfl⟩

/-- Claim C3 counterexample: the claim asserts name uniqueness for every
fetched sequence, including ones with repeated names.  The `for` loop of
`save_excel` never adds freshly appended names to `existing_names`, so
fetching `["A", "A"]` against an empty (trivially duplicate-free)
dataset persists two rows named `"A"`. -/
theorem C3_counterexample :
    ((([] : List Row)).map Row.name).Nodup
    ∧ save_excel (FileState.ok []) ["A", "A"]
        = FileState.ok [mkRecord "A", mkRecord "A"]
    ∧ ¬ (([mkRecord "A", mkRecord "A"]).map Row.name).Nodup := by
  refine ⟨by decide, rfl, by decide⟩

/-- Claim C3 (amended): if the existing dataset has pairwise-distinct
names and the fetched sequence itself has no duplicate names, the
reconciled dataset has pairwise-distinct names. -/
theorem C3_nodup_amended (ex : List Row) (scraped : List String)
    (h1 : (ex.map Row.name).Nodup) (h2 : scraped.Nodup) :
    ((reconciledRows (.ok ex) scraped).map Row.name).Nodup := by
  have hrw : (reconciledRows (.ok ex) scraped).map Row.name
      = ex.map Row.name ++ (newCompaniesToAdd (ex.map Row.name) scraped).map Row.name := by
    simp [reconciledRows, loadExisting]
  rw [hrw, List.nodup_append]
  refine ⟨h1, ?_, ?_⟩
  · rw [map_name_newCompanies]
    exact h2.filter _
  · intro a ha hb
    rw [map_name_newCompanies, List.mem_filter] at hb
    exact (of_decide_eq_true hb.2) ha

/-- Witness for the amended C3 at a concrete dataset and fetch. -/
theorem C3_nodup_amended_witness :
    (([mkRecord "B"] : List Row).map Row.name).Nodup
    ∧ (["A"] : List String).Nodup
    ∧ ((reconciledRows (.ok [mkRecord "B"]) ["A"]).map Row.name).Nodup :=
  ⟨by decide, by decide, C3_nodup_amended [mkRecord "B"] ["A"] (by decide) (by decide)⟩

/-- Claim C4: whatever dataset `save_excel` persists, the loaded base
rows form its initial segment unchanged — every pre-existing record
keeps all its fields and its position relative to the other
pre-existing records, and no field of a pre-existing record is
overwritten. -/
theorem C4_preservation (fs : FileState) (scraped : List String) (rows' : List Row)
    (h : save_excel fs scraped = .ok rows') :
    rows'.take ((loadExisting fs).1).length = (loadExisting fs).1 := by
  unfold save_excel at h
  by_cases hempty : (newCompaniesToAdd (loadExisting fs).2 scraped).isEmpty = true
  · rw [if_pos hempty] at h
    cases fs with
    | absent => cases h
    | corrupt => cases h
    | ok rows =>
        cases h
        simp [loadExisting]
  · rw [if_neg hempty] at h
    cases h
    simp only [reconciledRows]
    exact List.take_left ..

/-- Witness for C4: one existing row, one new fetched name. -/
theorem C4_preservation_witness :
    save_excel (FileState.ok [mkRecord "B"]) ["A"]
      = FileState.ok [mkRecord "B", mkRecord "A"]
    ∧ ([mkRecord "B", mkRecord "A"]).take
        ((loadExisting (FileState.ok [mkRecord "B"])).1).length
        = (loadExisting (FileState.ok [mkRecord "B"])).1 :=
  ⟨rfl, C4_preservation (FileState.ok [mkRecord "B"]) ["A"] [mkRecord "B", mkRecord "A"] rfl⟩

/-- Claim C5: reconciliation is idempotent.  Running `save_excel` twice
with the same fetched names changes nothing the second time; and
whenever every fetched name is already in the membership collection,
zero records are produced, the write-back is skipped and the file state
is returned untouched. -/
theorem C5_idempotent (fs : FileState) (scraped : List String) :
    save_excel (save_excel fs scraped) scraped = save_excel fs scraped
    ∧ ((∀ n ∈ scraped, n ∈ (loadExisting fs).2) →
        newCompaniesToAdd (loadExisting fs).2 scraped = []
        ∧ save_excel fs scraped = fs) := by
  constructor
  · by_cases hempty : (newCompaniesToAdd (loadExisting fs).2 scraped).isEmpty = true
    · have h1 : save_excel fs scraped = fs := by
        unfold save_excel; rw [if_pos hempty]
      simp only [h1]
    · have h1 : save_excel fs scraped = .ok (reconciledRows fs scraped) := by
        unfold save_excel; rw [if_neg hempty]
      rw [h1]
      have hmem : ∀ n ∈ scraped,
          n ∈ (loadExisting (FileState.ok (reconciledRows fs scraped))).2 := by
        intro n hn
        show n ∈ (reconciledRows fs scraped).map Row.name
        rw [reconciledRows, List.map_append]
        by_cases hens : n ∈ (loadExisting fs).2
        · exact List.mem_append_left _ (by rw [← loadExisting_snd]; exact hens)
        · exact List.mem_append_right _ (mem_newCompanies_names _ _ n hn hens)
      have hnil := newCompanies_eq_nil _ _ hmem
      unfold save_excel
      rw [hnil]
      rfl
  · intro h
    have hnil := newCompanies_eq_nil _ _ h
    refine ⟨hnil, ?_⟩
    unfold save_excel
    rw [hnil]
    rfl

/-- Witness for C5: the single fetched name is already present. -/
theorem C5_idempotent_witness :
    newCompaniesToAdd (loadExisting (FileState.ok [mkRecord "A"])).2 ["A"] = []
    ∧ save_excel (FileState.ok [mkRecord "A"]) ["A"] = FileState.ok [mkRecord "A"] :=
  (C5_idempotent (FileState.ok [mkRecord "A"]) ["A"]).2 (by decide)

/-- Claim C6: the merged dataset is the existing rows followed by the
new records, and the new records carry the fetched names that were
absent from the existing names, in fetch order. -/
theorem C6_order (ex : List Row) (scraped : List String) :
    reconciledRows (.ok ex) scraped
      = ex ++ newCompaniesToAdd (ex.map Row.name) scraped
    ∧ (newCompaniesToAdd (ex.map Row.name) scraped).map Row.name
      = scraped.filter (fun n => decide (n ∉ ex.map Row.name)) :=
  ⟨rfl, map_name_newCompanies _ _⟩

/-- Claim C7: every appended record has empty `Project Submitted`, empty
`Response`, status `"Non fait"` (the NotDone value), and a name taken
from the fetched sequence. -/
theorem C7_defaults (ens : List String) (scraped : List String) (r : Row)
    (h : r ∈ newCompaniesToAdd ens scraped) :
    r.projectSubmitted = "" ∧ r.response = "" ∧ r.statut = "Non fait"
    ∧ r.name ∈ scraped := by
  induction scraped with
  | nil => cases h
  | cons n rest ih =>
      by_cases hn : n ∈ ens
      · rw [newCompaniesToAdd, if_pos hn] at h
        have := ih h
        exact ⟨this.1, this.2.1, this.2.2.1, List.mem_cons_of_mem _ this.2.2.2⟩
      · rw [newCompaniesToAdd, if_neg hn] at h
        rcases List.mem_cons.mp h with heq | htail
        · subst heq
          exact ⟨rfl, rfl, rfl, List.mem_cons_self ..⟩
        · have := ih htail
          exact ⟨this.1, this.2.1, this.2.2.1, List.mem_cons_of_mem _ this.2.2.2⟩

/-- Witness for C7 at a concrete appended record. -/
theorem C7_defaults_witness :
    (mkRecord "A").projectSubmitted = "" ∧ (mkRecord "A").response = ""
    ∧ (mkRecord "A").statut = "Non fait" ∧ (mkRecord "A").name ∈ ["A"] :=
  C7_defaults [] ["A"] (mkRecord "A") (by simp [newCompaniesToAdd])

/-- Claim C8: when the persisted file exists but cannot be parsed, the
membership collection is empty, so every fetched name is treated as new,
and (when anything was fetched) the write replaces the on-disk content
with just the freshly built records — the prior content is gone. -/
theorem C8_corrupt_fallback (scraped : List String) (h : scraped ≠ []) :
    (loadExisting FileState.corrupt).2 = []
    ∧ newCompaniesToAdd (loadExisting FileState.corrupt).2 scraped
        = scraped.map mkRecord
    ∧ save_excel FileState.corrupt scraped = .ok (scraped.map mkRecord) := by
  refine ⟨rfl, newCompanies_nil_left scraped, ?_⟩
  unfold save_excel
  have hrw : newCompaniesToAdd (loadExisting FileState.corrupt).2 scraped
      = scraped.map mkRecord := newCompanies_nil_left scraped
  rw [hrw]
  have hne : (scraped.map mkRecord).isEmpty = false := by
    cases scraped with
    | nil => exact absurd rfl h
    | cons a t => rfl
  rw [hne]
  simp only [Bool.false_eq_true, if_false]
  simp [reconciledRows, loadExisting, newCompanies_nil_left]

/-- Witness for C8 at a one-element fetch. -/
theorem C8_corrupt_fallback_witness :
    (loadExisting FileState.corrupt).2 = []
    ∧ newCompaniesToAdd (loadExisting FileState.corrupt).2 ["A"]
        = ["A"].map mkRecord
    ∧ save_excel FileState.corrupt ["A"] = .ok (["A"].map mkRecord) :=
  C8_corrupt_fallback ["A"] (by decide)

/-- Claim C10: with no persisted file and an empty fetched sequence,
`save_excel` returns before any write: no file is created and the file
state stays absent. -/
theorem C10_empty_no_write :
    save_excel FileState.absent [] = FileState.absent := rfl
